import Mathlib

/-!
# Verification of the DBHub web application's request pipeline

This file is a shallow embedding, in Lean 4, of the core request pipeline of
the DBHub web application (cache-key construction, object resolution, SQLite
row reading and cell decoding, row limits, version assignment on upload, and
the visualisation-data endpoint's control flow), together with theorems about
that embedding.

Machine integers are modelled as `Nat` with explicit reduction modulo `2 ^ 32`
where the Go code relies on 32-bit wraparound (inside MD5).  SQLite cell
values are modelled by an inductive type carrying the dynamic type tag that
`ColumnType` reports.  The float payload of a cell is modelled as a rational
number; `strconv.FormatFloat (v, 'f', 4, 64)` is modelled as decimal rounding
to four fractional digits (the binary representation error of `float64` and
the sign of negative zero are below the granularity of any statement proved
here).
-/

/-! ## 32-bit arithmetic helpers (Go `uint32` operations used by `crypto/md5`) -/

/-- Truncation to 32 bits: Go arithmetic on `uint32` wraps modulo `2 ^ 32`. -/
def w32 (n : Nat) : Nat := n % 4294967296

/-- 32-bit left rotation (`bits.RotateLeft32`): the low part shifted up,
plus the high `s` bits wrapped to the bottom.  For `x < 2 ^ 32` the two
summands occupy disjoint bit ranges, so addition agrees with bitwise or. -/
def rotl32 (x s : Nat) : Nat := w32 (x * 2 ^ s) + x / 2 ^ (32 - s)

/-- 32-bit complement, as xor with `0xffffffff`. -/
def not32 (x : Nat) : Nat := Nat.xor x 4294967295

/-! ## MD5 (Go `crypto/md5`, per RFC 1321)

The cache keys of the web handlers are built from `md5.Sum` digests of
request-shape strings; this is a direct embedding of the MD5 algorithm. -/

/-- The MD5 round functions `F`, `G`, `H`, `I`. -/
def md5F (b c d : Nat) : Nat := Nat.lor (Nat.land b c) (Nat.land (not32 b) d)

def md5G (b c d : Nat) : Nat := Nat.lor (Nat.land b d) (Nat.land c (not32 d))

def md5H (b c d : Nat) : Nat := Nat.xor (Nat.xor b c) d

def md5I (b c d : Nat) : Nat := Nat.xor c (Nat.lor b (not32 d))

/-- The 64 MD5 sine-derived constants `K[i] = ⌊|sin (i + 1)| * 2 ^ 32⌋`. -/
def md5K : List Nat :=
  [0xd76aa478, 0xe8c7b756, 0x242070db, 0xc1bdceee,
   0xf57c0faf, 0x4787c62a, 0xa8304613, 0xfd469501,
   0x698098d8, 0x8b44f7af, 0xffff5bb1, 0x895cd7be,
   0x6b901122, 0xfd987193, 0xa679438e, 0x49b40821,
   0xf61e2562, 0xc040b340, 0x265e5a51, 0xe9b6c7aa,
   0xd62f105d, 0x02441453, 0xd8a1e681, 0xe7d3fbc8,
   0x21e1cde6, 0xc33707d6, 0xf4d50d87, 0x455a14ed,
   0xa9e3e905, 0xfcefa3f8, 0x676f02d9, 0x8d2a4c8a,
   0xfffa3942, 0x8771f681, 0x6d9d6122, 0xfde5380c,
   0xa4beea44, 0x4bdecfa9, 0xf6bb4b60, 0xbebfbc70,
   0x289b7ec6, 0xeaa127fa, 0xd4ef3085, 0x04881d05,
   0xd9d4d039, 0xe6db99e5, 0x1fa27cf8, 0xc4ac5665,
   0xf4292244, 0x432aff97, 0xab9423a7, 0xfc93a039,
   0x655b59c3, 0x8f0ccc92, 0xffeff47d, 0x85845dd1,
   0x6fa87e4f, 0xfe2ce6e0, 0xa3014314, 0x4e0811a1,
   0xf7537e82, 0xbd3af235, 0x2ad7d2bb, 0xeb86d391]

/-- The 64 per-step left-rotation amounts. -/
def md5S : List Nat :=
  [7, 12, 17, 22, 7, 12, 17, 22, 7, 12, 17, 22, 7, 12, 17, 22,
   5, 9, 14, 20, 5, 9, 14, 20, 5, 9, 14, 20, 5, 9, 14, 20,
   4, 11, 16, 23, 4, 11, 16, 23, 4, 11, 16, 23, 4, 11, 16, 23,
   6, 10, 15, 21, 6, 10, 15, 21, 6, 10, 15, 21, 6, 10, 15, 21]

/-- One MD5 step: given the step index `i`, the 16 message words `m` and the
state `(a, b, c, d)`, produce the next state. -/
def md5Step (m : List Nat) (st : Nat × Nat × Nat × Nat) (i : Nat) :
    Nat × Nat × Nat × Nat :=
  let (a, b, c, d) := st
  let fg : Nat × Nat :=
    if i < 16 then (md5F b c d, i)
    else if i < 32 then (md5G b c d, (5 * i + 1) % 16)
    else if i < 48 then (md5H b c d, (3 * i + 5) % 16)
    else (md5I b c d, (7 * i) % 16)
  let newB := w32 (b + rotl32 (w32 (a + fg.1 + md5K.getD i 0 + m.getD fg.2 0)) (md5S.getD i 0))
  (d, newB, b, c)

/-- Interpret four bytes as a little-endian 32-bit word. -/
def word32LE (b0 b1 b2 b3 : Nat) : Nat := b0 + 256 * b1 + 65536 * b2 + 16777216 * b3

/-- Group a byte list into little-endian 32-bit words (the list length is a
multiple of 4 whenever this is applied). -/
def bytesToWords : List Nat → List Nat
  | b0 :: b1 :: b2 :: b3 :: rest => word32LE b0 b1 b2 b3 :: bytesToWords rest
  | _ => []

/-- Process one padded 64-byte block, updating the running MD5 state. -/
def md5Block (st : Nat × Nat × Nat × Nat) (block : List Nat) : Nat × Nat × Nat × Nat :=
  let m := bytesToWords block
  let r := (List.range 64).foldl (md5Step m) st
  (w32 (st.1 + r.1), w32 (st.2.1 + r.2.1), w32 (st.2.2.1 + r.2.2.1), w32 (st.2.2.2 + r.2.2.2))

/-- Split a byte list into 64-byte blocks. -/
def toBlocks : List Nat → List (List Nat)
  | [] => []
  | b :: rest => ((b :: rest).take 64) :: toBlocks ((b :: rest).drop 64)
termination_by l => l.length
decreasing_by simp; omega

/-- The eight little-endian bytes of a 64-bit length. -/
def le8 (n : Nat) : List Nat :=
  [n % 256, n / 256 % 256, n / 65536 % 256, n / 16777216 % 256,
   n / 4294967296 % 256, n / 1099511627776 % 256,
   n / 281474976710656 % 256, n / 72057594037927936 % 256]

/-- The four little-endian bytes of a 32-bit word. -/
def le4 (n : Nat) : List Nat := [n % 256, n / 256 % 256, n / 65536 % 256, n / 16777216 % 256]

/-- MD5 padding: a `0x80` byte, zeros to 56 mod 64, then the bit length as a
little-endian 64-bit quantity. -/
def md5Pad (msg : List Nat) : List Nat :=
  msg ++ [128] ++ List.replicate ((119 - msg.length % 64) % 64) 0 ++ le8 (msg.length * 8)

/-- The full MD5 digest of a byte list: sixteen bytes. -/
def md5Bytes (msg : List Nat) : List Nat :=
  let r := (toBlocks (md5Pad msg)).foldl md5Block
    (0x67452301, 0xefcdab89, 0x98badcfe, 0x10325476)
  le4 r.1 ++ le4 r.2.1 ++ le4 r.2.2.1 ++ le4 r.2.2.2

/-! ## Hex encoding (Go `encoding/hex`) and string bytes -/

/-- A lowercase hexadecimal digit. -/
def hexDigit (n : Nat) : Char := if n < 10 then Char.ofNat (48 + n) else Char.ofNat (87 + n)

/-- Two hex digits per byte, as `hex.EncodeToString` produces them. -/
def hexChars : List Nat → List Char
  | [] => []
  | b :: rest => hexDigit (b / 16) :: hexDigit (b % 16) :: hexChars rest

/-- `hex.EncodeToString` on a byte list. -/
def hexStr (bs : List Nat) : String := ⟨hexChars bs⟩

/-- UTF-8 encoding of one character (Go strings are UTF-8 byte sequences). -/
def charUtf8 (c : Char) : List Nat :=
  let n := c.toNat
  if n < 128 then [n]
  else if n < 2048 then [192 + n / 64, 128 + n % 64]
  else if n < 65536 then [224 + n / 4096, 128 + n / 64 % 64, 128 + n % 64]
  else [240 + n / 262144, 128 + n / 4096 % 64, 128 + n / 64 % 64, 128 + n % 64]

/-- The UTF-8 bytes of a string, the form in which Go hashes it. -/
def strBytes (s : String) : List Nat := s.data.foldr (fun c acc => charUtf8 c ++ acc) []

/-- `hex.EncodeToString (md5.Sum s)`: the 32-character digest string used in
every cache key of the web handlers. -/
def md5Hex (s : String) : String := hexStr (md5Bytes (strBytes s))

/-! ## Decimal printing (Go `strconv.Itoa`) -/

/-- The decimal digit character for `d < 10`. -/
def digitChar (d : Nat) : Char := Char.ofNat (48 + d)

/-- The decimal digit characters of `n`, most significant first. -/
def itoaAux (n : Nat) : List Char :=
  if n < 10 then [digitChar n]
  else itoaAux (n / 10) ++ [digitChar (n % 10)]
decreasing_by exact Nat.div_lt_self (by omega) (by omega)

/-- `strconv.Itoa` on a natural number. -/
def itoa (n : Nat) : String := ⟨itoaAux n⟩

/-- Decimal parsing, the left inverse of `itoaAux` used to prove injectivity. -/
def atoiAux (l : List Char) : Nat := l.foldl (fun a c => a * 10 + (c.toNat - 48)) 0

/-- `fmt.Sprintf "%d"` on a Go `int`, i.e. sign then decimal digits. -/
def intToDecimal (i : Int) : String := if i < 0 then "-" ++ itoa i.natAbs else itoa i.toNat

/-- Left-pad a string to four characters with zeros. -/
def padZeros4 (s : String) : String := ⟨List.replicate (4 - s.length) '0'⟩ ++ s

/-- `strconv.FormatFloat (v, 'f', 4, 64)`: the scanned double, modelled as a
rational, printed with exactly four digits after the decimal point. -/
def formatFloat4 (q : ℚ) : String :=
  let n : ℤ := round (q * 10000)
  (if n < 0 then "-" else "") ++ itoa (n.natAbs / 10000) ++ "." ++ padZeros4 (itoa (n.natAbs % 10000))

/-! ## Base64 (Go `encoding/base64` `StdEncoding`) -/

/-- The standard base64 alphabet. -/
def base64Alphabet : List Char :=
  "ABCDEFGHIJKLMNOPQRSTUVWXYZabcdefghijklmnopqrstuvwxyz0123456789+/".data

/-- The base64 character for a 6-bit value. -/
def b64Char (n : Nat) : Char := base64Alphabet.getD n 'A'

/-- Base64-encode a byte list, with `=` padding, as `StdEncoding.EncodeToString`. -/
def b64Chars : List Nat → List Char
  | [] => []
  | [a] => [b64Char (a / 4), b64Char (a % 4 * 16), '=', '=']
  | [a, b] => [b64Char (a / 4), b64Char (a % 4 * 16 + b / 16), b64Char (b % 16 * 4), '=']
  | a :: b :: c :: rest =>
      b64Char (a / 4) :: b64Char (a % 4 * 16 + b / 16) :: b64Char (b % 16 * 4 + c / 64)
        :: b64Char (c % 64) :: b64Chars rest

/-- `base64.StdEncoding.EncodeToString` on a byte list. -/
def base64Std (bs : List Nat) : String := ⟨b64Chars bs⟩

/-! ## SQLite cells and decoding

A cell carries the dynamic type that `stmt.ColumnType` reports; the storage
format permits per-row type variation, so the type lives on the cell, not on
the column. -/

/-- A SQLite cell value with its dynamic type tag. -/
inductive Cell
  | intg (i : Int)
  | flt (q : ℚ)
  | txt (s : String)
  | blob (b : List Nat)
  | null
deriving DecidableEq, Repr

/-- The `com` package's column type tags used in `DataValue`. -/
inductive ColType
  | Binary
  | Float
  | Integer
  | Null
  | Text
deriving DecidableEq, Repr

/-- `com.DataValue`: one decoded cell of a JSON record. -/
structure DataValue where
  Name : String
  «Type» : ColType
  Value : String
deriving DecidableEq, Repr

/-- The per-cell decoding performed by `databasePage` (src/pages.go:144-208):
integer → decimal string, float → fixed 4-decimal string, text as-is,
blob → the constant placeholder `<i>BINARY DATA</i>`, null → the marker
`<i>NULL</i>` under the `Null` type tag. -/
def databasePageDataValue (name : String) : Cell → DataValue
  | .intg i => ⟨name, .Integer, intToDecimal i⟩
  | .flt q => ⟨name, .Float, formatFloat4 q⟩
  | .txt s => ⟨name, .Text, s⟩
  | .blob _ => ⟨name, .Binary, "<i>BINARY DATA</i>"⟩
  | .null => ⟨name, .Null, "<i>NULL</i>"⟩

/-- The per-cell decoding performed by `downloadCSVHandler`
(src/unnamed/part_000:104-151): same numeric/text rules, but a blob is
base64-encoded into the output and null becomes the bare string `NULL`. -/
def downloadCSVCellString : Cell → String
  | .intg i => intToDecimal i
  | .flt q => formatFloat4 q
  | .txt s => s
  | .blob b => base64Std b
  | .null => "NULL"

/-- One table of an opened SQLite database file. -/
structure SQLiteTable where
  name : String
  cols : List String
  rows : List (List Cell)
deriving DecidableEq, Repr

/-- An opened SQLite database file: its tables in enumeration order. -/
structure DBFile where
  tables : List SQLiteTable
deriving DecidableEq, Repr

/-- `db.Tables ""`: the enumerated table names of the file. -/
def listTables (f : DBFile) : List String := f.tables.map (fun t => t.name)

/-- `com.SQLiteRecordSet`: the JSON table-view payload shape. -/
structure SQLiteRecordSet where
  ColNames : List String
  ColCount : Nat
  RowCount : Nat
  TotalRows : Nat
  Tablename : String
  Records : List (List DataValue)
deriving DecidableEq, Repr

/-- Decode one row by pairing column names with cells, as the row callback of
`databasePage` does. -/
def decodeRow (names : List String) (row : List Cell) : List DataValue :=
  (names.zip row).map (fun p => databasePageDataValue p.1 p.2)

/-- `SELECT * FROM t LIMIT maxRows` followed by the row decoding of
`databasePage` / `com.ReadSQLiteDB`: at most `maxRows` rows are read. -/
def readSQLiteDB (t : SQLiteTable) (maxRows : Nat) : SQLiteRecordSet :=
  let sel := t.rows.take maxRows
  { ColNames := t.cols
    ColCount := t.cols.length
    RowCount := sel.length
    TotalRows := 0
    Tablename := t.name
    Records := sel.map (decodeRow t.cols) }

/-- `SELECT count(*) FROM t`: the unbounded total row count. -/
def getSQLiteRowCount (t : SQLiteTable) : Nat := t.rows.length

/-- The CSV export's read (src/unnamed/part_000:87): `SELECT * FROM t` with
no `LIMIT` clause, decoding every row of the table. -/
def downloadCSVRows (t : SQLiteTable) : List (List String) :=
  t.rows.map (fun r => r.map downloadCSVCellString)

/-- The row-limit determination shared by `databasePage` (src/pages.go:56-62)
and `tableViewHandler` (src/unnamed/part_001:596-604): the per-user
preference when logged in, 10 rows for anonymous viewers. -/
def effectiveMaxRows (loggedInUser : String) (pref : Nat) : Nat :=
  if loggedInUser ≠ "" then pref else 10

/-! ## Metadata store and object resolution -/

/-- One row of `database_versions` joined with its `sqlite_databases` record:
the stored-object reference of one immutable database version. -/
structure VersionRow where
  owner : String
  dbname : String
  version : Nat
  public : Bool
  bucket : String
  minioid : String
  size : Nat
  sha : String
deriving DecidableEq, Repr

/-- Keep whichever of a row and an optional running best has the higher
version. -/
def pickBetter (v : VersionRow) : Option VersionRow → VersionRow
  | none => v
  | some b => if b.version < v.version then v else b

/-- `ORDER BY version DESC LIMIT 1`: pick a row of maximal version. -/
def pickLatest : List VersionRow → Option VersionRow
  | [] => none
  | v :: rest => some (pickBetter v (pickLatest rest))

/-- The version-resolution queries of `tableViewHandler`
(src/unnamed/part_000:684-722): among the versions of `(owner, dbname)`,
restricted to public ones unless the viewer is the owner, select the
highest-numbered one. -/
def resolveLatest (store : List VersionRow) (owner dbname viewer : String) :
    Option VersionRow :=
  pickLatest (store.filter
    (fun v => v.owner == owner && v.dbname == dbname && (viewer == owner || v.public)))

/-- Modelled from the spec: `com.CheckUserDBAccess` / `resolve` (§4.1) — the
viewer may access `(owner, dbname)` exactly when a version visible to them
exists (any version for the owner, a public one otherwise); on success it
yields the Minio bucket and object id of the selected version. -/
def checkUserDBAccess (store : List VersionRow) (loggedInUser owner dbname : String) :
    Option (String × String) :=
  (resolveLatest store owner dbname loggedInUser).map (fun r => (r.bucket, r.minioid))

/-! ## Cache keys -/

/-- The whole-page cache key of `databasePage` before the row-limit suffix
(src/pages.go:46-54): namespace `dwndb-pub-` with fingerprint
`owner/db/table` for a non-owner viewer, namespace `dwndb-` with fingerprint
`viewer-owner/db/table` for the owner. -/
def databasePageCacheKeyBase (loggedInUser userName dbName dbTable : String) : String :=
  if loggedInUser ≠ userName then
    "dwndb-pub-" ++ md5Hex (userName ++ "/" ++ dbName ++ "/" ++ dbTable)
  else
    "dwndb-" ++ md5Hex (loggedInUser ++ "-" ++ userName ++ "/" ++ dbName ++ "/" ++ dbTable)

/-- The full `databasePage` cache key (src/pages.go:65): the base key with
the effective row limit appended as `/<maxRows>`. -/
def databasePageCacheKey (loggedInUser userName dbName dbTable : String) (maxRows : Nat) :
    String :=
  databasePageCacheKeyBase loggedInUser userName dbName dbTable ++ "/" ++ itoa maxRows

/-- The rendered-JSON cache key of `tableViewHandler` before the row-limit
suffix (src/unnamed/part_000:700-719): namespaces `tbl-pub-` / `tbl-`. -/
def tableViewJSONCacheKeyBase (loggedInUser dbOwner dbName requestedTable : String) : String :=
  if loggedInUser ≠ dbOwner then
    "tbl-pub-" ++ md5Hex (dbOwner ++ "/" ++ dbName ++ "/" ++ requestedTable)
  else
    "tbl-" ++ md5Hex (loggedInUser ++ "-" ++ dbOwner ++ "/" ++ dbName ++ "/" ++ requestedTable)

/-- The full `tableViewHandler` JSON cache key (src/unnamed/part_000:769):
the base key with the effective row limit appended as `/<maxRows>`. -/
def tableViewJSONCacheKey (loggedInUser dbOwner dbName requestedTable : String)
    (maxRows : Nat) : String :=
  tableViewJSONCacheKeyBase loggedInUser dbOwner dbName requestedTable ++ "/" ++ itoa maxRows

/-- The JSON-data cache key of `visData` (src/unnamed/part_001:956-966):
namespace `visdat-pub-` with fingerprint
`owner/db/table + xcol + ycol + wherecol + wheretype + whereval` for a
non-owner viewer, namespace `visdat-` with the viewer prepended otherwise. -/
def visDataCacheKey (loggedInUser userName dbName requestedTable xCol yCol wCol wType wVal :
    String) : String :=
  if loggedInUser ≠ userName then
    "visdat-pub-" ++ md5Hex (userName ++ "/" ++ dbName ++ "/" ++ requestedTable ++ xCol ++ yCol
      ++ wCol ++ wType ++ wVal)
  else
    "visdat-" ++ md5Hex (loggedInUser ++ "-" ++ userName ++ "/" ++ dbName ++ "/" ++ requestedTable
      ++ xCol ++ yCol ++ wCol ++ wType ++ wVal)

/-- The `databasePage` pipeline up to cache-key construction: the key is only
built once `com.CheckUserDBAccess` has granted access (src/pages.go:38-65). -/
def databasePageKeyOf (store : List VersionRow)
    (loggedInUser userName dbName dbTable : String) (pref : Nat) : Option String :=
  match checkUserDBAccess store loggedInUser userName dbName with
  | none => none
  | some _ =>
    some (databasePageCacheKey loggedInUser userName dbName dbTable
      (effectiveMaxRows loggedInUser pref))

/-- The `visData` pipeline up to cache-key construction: the key is only
built once `com.CheckUserDBAccess` has granted access
(src/unnamed/part_001:948-966). -/
def visDataKeyOf (store : List VersionRow)
    (loggedInUser userName dbName requestedTable xCol yCol wCol wType wVal : String) :
    Option String :=
  match checkUserDBAccess store loggedInUser userName dbName with
  | none => none
  | some _ =>
    some (visDataCacheKey loggedInUser userName dbName requestedTable xCol yCol wCol wType wVal)

/-! ## Upload (`uploadDataHandler`, src/unnamed/part_001:691-855)

The server state visible to the upload path: the set of stored objects in
Minio and the metadata rows referencing them.  External failures (the SQLite
sanity check, the object store, the metadata insert) are modelled as inputs
so that every exit path of the handler is covered. -/

/-- The object store plus the metadata store. -/
structure ServerState where
  objects : List (String × String)
  meta : List VersionRow
deriving DecidableEq, Repr

/-- One upload request together with the outcomes of its external calls:
`fileTables = none` models `sqlite.Open` failing on the temp copy,
`storeOk = false` models `com.StoreMinioObject` failing, and
`addOk = false` models `com.AddDatabase` failing. -/
structure UploadRequest where
  owner : String
  dbName : String
  public : Bool
  bucket : String
  minioID : String
  size : Nat
  sha : String
  fileTables : Option (List String)
  storeOk : Bool
  addOk : Bool
deriving DecidableEq, Repr

/-- Modelled from the spec: `com.HighestDBVersion` — the maximum existing
version number of `(owner, dbName)`, 0 when none exist (§3: versions are
assigned as `max(existing) + 1`). -/
def highestDBVersion (meta : List VersionRow) (owner dbName : String) : Nat :=
  (meta.filter (fun r => r.owner == owner && r.dbname == dbName)).foldl
    (fun m r => max m r.version) 0

/-- The terminal outcome of one run of `uploadDataHandler`. -/
inductive UploadOutcome
  | errOpen
  | errNoTables
  | errStore
  | errAdd
  | success (newVer : Nat)
deriving DecidableEq, Repr

/-- One run of `uploadDataHandler` (src/unnamed/part_001:773-839): sanity-open
the uploaded file, reject it when it has no tables, compute the new version
number from `com.HighestDBVersion`, store the object in Minio, and only then
insert the metadata row referencing it.  Every failure returns with the
state as it stands at that point. -/
def uploadDataRun (st : ServerState) (req : UploadRequest) : ServerState × UploadOutcome :=
  match req.fileTables with
  | none => (st, .errOpen)
  | some tables =>
    if tables.isEmpty then (st, .errNoTables)
    else
      let highVer := highestDBVersion st.meta req.owner req.dbName
      let newVer := if highVer > 0 then highVer + 1 else 1
      if req.storeOk = false then (st, .errStore)
      else
        let st1 : ServerState := { st with objects := (req.bucket, req.minioID) :: st.objects }
        if req.addOk = false then (st1, .errAdd)
        else
          ({ st1 with
              meta := st1.meta ++
                [⟨req.owner, req.dbName, newVer, req.public, req.bucket, req.minioID,
                  req.size, req.sha⟩] },
            .success newVer)

/-- The dangling-reference invariant (§3): every metadata row's stored-object
reference has a backing object in the object store. -/
def noDanglingRefs (st : ServerState) : Prop :=
  ∀ r ∈ st.meta, (r.bucket, r.minioid) ∈ st.objects

instance (st : ServerState) : Decidable (noDanglingRefs st) := by
  unfold noDanglingRefs; infer_instance

/-! ## The `visData` endpoint (src/unnamed/part_001:858-1043) -/

/-- Modelled from the spec: `com.ValidatePGTable` — the PostgreSQL-style
identifier *format* check applied to user-supplied column names (a shape
check only; it is not the whitelist-against-enumeration check). -/
def validatePGTable (s : String) : Bool :=
  s ≠ "" && s.length ≤ 63 && s.data.all (fun c => c.isAlphanum || c = '_')

/-- The filter-operator whitelist of `visData` (src/unnamed/part_001:918). -/
def validWhereOp (t : String) : Bool :=
  t = "LIKE" || t = "=" || t = "!=" || t = "<" || t = "<=" || t = ">" || t = ">="

/-- The inputs of one `visData` request. -/
structure VisRequest where
  loggedInUser : String
  userName : String
  dbName : String
  requestedTable : String
  xcol : String
  ycol : String
  wherecol : String
  wheretype : String
  whereval : String
deriving DecidableEq, Repr

/-- The terminal outcome of one run of `visData`: a `BadRequest` error page,
a bare `return` with nothing written to the response, a cache hit, or a read
call (`com.ReadSQLiteDBCols` with projected columns, or `com.ReadSQLiteDB`),
recording the table name and row cap the read receives. -/
inductive VisOutcome
  | badRequest (msg : String)
  | silent
  | cached (body : String)
  | readCols (table xcol ycol : String) (maxVals : Nat)
  | readAll (table : String) (maxVals : Nat)
deriving DecidableEq, Repr

/-- True exactly on the read outcomes. -/
def VisOutcome.isRead : VisOutcome → Bool
  | .readCols _ _ _ _ => true
  | .readAll _ _ => true
  | _ => false

/-- True exactly on the `BadRequest` outcome. -/
def VisOutcome.isBadRequest : VisOutcome → Bool
  | .badRequest _ => true
  | _ => false

/-- The table-presence check of `visData` (src/unnamed/part_001:999-1013):
`dbTable` is the requested table when the enumeration contains it, otherwise
the first enumerated table.  The source computes this value and then does
not pass it to the read calls. -/
def visDataSelectedTable (tables : List String) (requestedTable : String) : String :=
  let dbTable := if requestedTable ≠ "" && tables.contains requestedTable
    then requestedTable else ""
  if dbTable = "" then tables.headD "" else dbTable

/-- One run of `visData` (src/unnamed/part_001:858-1043) on the cache-miss
path parametrised by the cache lookup's answer: column-name format checks
and the operator whitelist (each failure is a bare `return`), the access
check (failure renders a `BadRequest` error page), the cache lookup, the
table enumeration (`file = none` models `OpenMinioObject` or `Tables ""`
failing), and finally the read — which the source performs on
`requestedTable`, not on the validated `dbTable`. -/
def visDataRun (store : List VersionRow) (file : Option DBFile) (cacheHit : Option String)
    (req : VisRequest) : VisOutcome :=
  if req.xcol ≠ "" && !validatePGTable req.xcol then .silent
  else if req.ycol ≠ "" && !validatePGTable req.ycol then .silent
  else if req.wherecol ≠ "" && !validatePGTable req.wherecol then .silent
  else if req.wheretype ≠ "" && !validWhereOp req.wheretype then .silent
  else
    match checkUserDBAccess store req.loggedInUser req.userName req.dbName with
    | none => .badRequest "database access check failed"
    | some _ =>
      match cacheHit with
      | some body => .cached body
      | none =>
        match file with
        | none => .silent
        | some f =>
          let tables := listTables f
          if tables.isEmpty then .silent
          else
            let _ := visDataSelectedTable tables req.requestedTable
            if req.xcol ≠ "" && req.ycol ≠ "" then
              .readCols req.requestedTable req.xcol req.ycol 2500
            else .readAll req.requestedTable 2500

/-! ## Concrete fixtures used by witnesses and counterexamples -/

/-- A store holding one private version of `carol/db1`. -/
def privStore : List VersionRow := [⟨"carol", "db1", 1, false, "bkt", "obj1", 42, "aa"⟩]

/-- A store holding one public version of `carol/db1`. -/
def pubStore : List VersionRow := [⟨"carol", "db1", 1, true, "bkt", "obj1", 42, "aa"⟩]

/-- A database file with a single table `t1` on column `a`. -/
def oneTableFile : DBFile := ⟨[⟨"t1", ["a"], [[Cell.intg 7]]⟩]⟩

/-- A `visData` request by an anonymous viewer for the absent table `evil`. -/
def evilTableReq : VisRequest := ⟨"", "carol", "db1", "evil", "", "", "", "", ""⟩

/-- A `visData` request whose filter operator `BETWEEN` is outside the
operator whitelist. -/
def badOpReq : VisRequest := ⟨"", "carol", "db1", "t1", "", "", "c", "BETWEEN", "5"⟩

/-- A table of eleven rows used to exhibit the unbounded CSV read. -/
def elevenRowTable : SQLiteTable := ⟨"t", ["a"], List.replicate 11 [Cell.null]⟩

/-- Version 1 of `carol/db1`, public. -/
def verRow1 : VersionRow := ⟨"carol", "db1", 1, true, "bkt", "obj1", 1, "a"⟩

/-- Version 2 of `carol/db1`, private. -/
def verRow2 : VersionRow := ⟨"carol", "db1", 2, false, "bkt", "obj2", 1, "b"⟩

/-- A store holding a public version 1 and a private version 2 of
`carol/db1`. -/
def twoVerStore : List VersionRow := [verRow1, verRow2]

/-- An upload request whose external calls all succeed. -/
def okUploadReq : UploadRequest :=
  ⟨"carol", "db1", true, "bkt", "obj9", 7, "ff", some ["t"], true, true⟩

/-! ## The table-view empty-result response (src/unnamed/part_001:656-668) -/

/-- The opening-brace character. -/
def lbrace : Char := Char.ofNat 123

/-- The closing-brace character. -/
def rbrace : Char := Char.ofNat 125

/-- The literal two bytes 0x7b 0x5d that `tableViewHandler` emits for an
empty result set: an opening brace followed by a closing bracket. -/
def tableViewEmptyIndicator : String := ⟨[lbrace, ']']⟩

/-- The response-body selection of `tableViewHandler`
(src/unnamed/part_001:656-668): the marshalled JSON when at least one row
was read, the two-byte empty-set indicator otherwise. -/
def tableViewResponseBody (marshalled : String) (rowCount : Nat) : String :=
  if rowCount > 0 then marshalled else tableViewEmptyIndicator

/-- Bracket/brace matching with an explicit stack: a necessary condition for
a byte sequence to be well-formed JSON. -/
def delimsBalancedAux : List Char → List Char → Bool
  | stack, [] => stack.isEmpty
  | stack, c :: rest =>
    if c = '[' || c = lbrace then delimsBalancedAux (c :: stack) rest
    else if c = ']' then
      match stack with
      | '[' :: s => delimsBalancedAux s rest
      | _ => false
    else if c = rbrace then
      match stack with
      | d :: s => if d = lbrace then delimsBalancedAux s rest else false
      | _ => false
    else delimsBalancedAux stack rest

/-- Whether the string's brackets and braces nest properly. -/
def delimsBalanced (s : String) : Bool := delimsBalancedAux [] s.data

/-! ## Shape of four-decimal float strings -/

/-- The string is a sign-and-digits value with exactly four digit characters
after its decimal point, the shape `strconv.FormatFloat (v, 'f', 4, 64)`
guarantees. -/
def fourDecimals (s : String) : Prop :=
  ∃ intPart fracPart : String,
    s = intPart ++ "." ++ fracPart ∧ fracPart.length = 4 ∧ ∀ c ∈ fracPart.data, c.isDigit

/-! # Theorems

## String and list infrastructure -/

theorem str_data_append (s t : String) : (s ++ t).data = s.data ++ t.data := rfl

theorem str_length_data (s : String) : s.length = s.data.length := rfl

theorem str_eq_of_data {s t : String} (h : s.data = t.data) : s = t := by
  cases s; cases t; exact congrArg String.mk h

theorem str_length_append (s t : String) : (s ++ t).length = s.length + t.length := by
  simp only [str_length_data, str_data_append, List.length_append]

theorem str_append_cancel_of_length {a b c d : String} (hl : a.length = c.length)
    (h : a ++ b = c ++ d) : b = d := by
  have hdata : a.data ++ b.data = c.data ++ d.data := by
    have := congrArg String.data h
    simpa only [str_data_append] using this
  exact str_eq_of_data (List.append_inj hdata (by
    simpa only [str_length_data] using hl)).2

theorem str_ne_of_length_ne {a b : String} (h : a.length ≠ b.length) : a ≠ b :=
  fun e => h (by rw [e])

/-! ## Decimal printing facts -/

theorem digitChar_toNat {d : Nat} (h : d < 10) : (digitChar d).toNat = 48 + d := by
  interval_cases d <;> decide

theorem digitChar_isDigit {d : Nat} (h : d < 10) : (digitChar d).isDigit := by
  interval_cases d <;> decide

theorem atoiAux_append_digit (l : List Char) (c : Char) :
    atoiAux (l ++ [c]) = atoiAux l * 10 + (c.toNat - 48) := by
  simp [atoiAux, List.foldl_append]

theorem atoi_itoa (n : Nat) : atoiAux (itoaAux n) = n := by
  induction n using Nat.strong_induction_on with
  | _ n ih =>
    rw [itoaAux]
    split
    · next h => simp [atoiAux, digitChar_toNat h]
    · next h =>
      have hlt : n / 10 < n := Nat.div_lt_self (by omega) (by omega)
      rw [atoiAux_append_digit, ih (n / 10) hlt, digitChar_toNat (Nat.mod_lt n (by omega))]
      omega

theorem itoa_inj {a b : Nat} (h : itoa a = itoa b) : a = b := by
  have hd : itoaAux a = itoaAux b := congrArg String.data h
  have := congrArg atoiAux hd
  rwa [atoi_itoa, atoi_itoa] at this

theorem itoaAux_length_pos (n : Nat) : 1 ≤ (itoaAux n).length := by
  rw [itoaAux]; split <;> simp

theorem itoaAux_length_le : ∀ k n : Nat, n < 10 ^ (k + 1) → (itoaAux n).length ≤ k + 1 := by
  intro k
  induction k with
  | zero =>
    intro n h
    rw [itoaAux]
    split
    · simp
    · omega
  | succ k ih =>
    intro n h
    rw [itoaAux]
    split
    · simp
    · next hn =>
      have hdiv : n / 10 < 10 ^ (k + 1) := by
        have := (Nat.div_lt_iff_lt_mul (by omega : 0 < 10)).mpr
          (by rw [pow_succ] at h; omega : n < 10 ^ (k + 1) * 10)
        exact this
      have := ih (n / 10) hdiv
      simp only [List.length_append, List.length_cons, List.length_nil]
      omega

theorem itoa_length_pos (n : Nat) : 1 ≤ (itoa n).length := itoaAux_length_pos n

theorem itoa_length_le_three {n : Nat} (h : n ≤ 500) : (itoa n).length ≤ 3 :=
  itoaAux_length_le 2 n (by omega)

theorem itoa_length_le_four {n : Nat} (h : n < 10000) : (itoa n).length ≤ 4 :=
  itoaAux_length_le 3 n (by omega)

theorem itoaAux_digits (n : Nat) : ∀ c ∈ itoaAux n, c.isDigit := by
  induction n using Nat.strong_induction_on with
  | _ n ih =>
    rw [itoaAux]
    split
    · next h =>
      intro c hc
      simp only [List.mem_singleton] at hc
      exact hc ▸ digitChar_isDigit h
    · next h =>
      intro c hc
      rcases List.mem_append.mp hc with h1 | h2
      · exact ih (n / 10) (Nat.div_lt_self (by omega) (by omega)) c h1
      · simp only [List.mem_singleton] at h2
        exact h2 ▸ digitChar_isDigit (Nat.mod_lt n (by omega))

/-! ## Digest length facts -/

theorem hexChars_length (bs : List Nat) : (hexChars bs).length = 2 * bs.length := by
  induction bs with
  | nil => simp [hexChars]
  | cons b rest ih => simp [hexChars, ih]; omega

theorem md5Bytes_length (m : List Nat) : (md5Bytes m).length = 16 := by
  simp [md5Bytes, le4]

theorem md5Hex_length (s : String) : (md5Hex s).length = 32 := by
  simp [md5Hex, hexStr, str_length_data, hexChars_length, md5Bytes_length]

/-! ## Resolver facts -/

theorem pickLatest_eq_none {l : List VersionRow} : pickLatest l = none ↔ l = [] := by
  cases l <;> simp [pickLatest]

theorem pickLatest_mem : ∀ {l : List VersionRow} {r : VersionRow},
    pickLatest l = some r → r ∈ l := by
  intro l
  induction l with
  | nil => intro r h; simp [pickLatest] at h
  | cons v rest ih =>
    intro r h
    simp only [pickLatest, Option.some_inj] at h
    cases h' : pickLatest rest with
    | none => rw [h', pickBetter] at h; simp [h]
    | some b =>
      rw [h', pickBetter] at h
      split at h
      · simp [h]
      · exact List.mem_cons_of_mem v (h ▸ ih h')

theorem pickLatest_max : ∀ {l : List VersionRow} {r : VersionRow},
    pickLatest l = some r → ∀ x ∈ l, x.version ≤ r.version := by
  intro l
  induction l with
  | nil => intro r _ x hx; simp at hx
  | cons v rest ih =>
    intro r h x hx
    simp only [pickLatest, Option.some_inj] at h
    rcases List.mem_cons.mp hx with rfl | hx'
    · cases h' : pickLatest rest with
      | none => rw [h', pickBetter] at h; subst h; omega
      | some b =>
        rw [h', pickBetter] at h
        split at h <;> subst h <;> omega
    · cases h' : pickLatest rest with
      | none =>
        have hrest : rest = [] := pickLatest_eq_none.mp h'
        subst hrest
        simp at hx'
      | some b =>
        have hxb := ih h' x hx'
        rw [h', pickBetter] at h
        split at h <;> subst h <;> omega

/-- Decompose membership in the resolver's candidate filter. -/
theorem resolveLatest_some_facts {store : List VersionRow} {owner dbname viewer : String}
    {r : VersionRow} (h : resolveLatest store owner dbname viewer = some r) :
    r ∈ store ∧ r.owner = owner ∧ r.dbname = dbname ∧ (viewer = owner ∨ r.public = true) := by
  have hm := pickLatest_mem h
  rw [List.mem_filter] at hm
  obtain ⟨hmem, hpred⟩ := hm
  simp only [Bool.and_eq_true, Bool.or_eq_true, beq_iff_eq] at hpred
  exact ⟨hmem, hpred.1.1, hpred.1.2, hpred.2⟩

/-- Every candidate is bounded by the version the resolver selects. -/
theorem resolveLatest_ge {store : List VersionRow} {owner dbname viewer : String}
    {r x : VersionRow} (h : resolveLatest store owner dbname viewer = some r)
    (hx : x ∈ store) (ho : x.owner = owner) (hd : x.dbname = dbname)
    (hv : viewer = owner ∨ x.public = true) : x.version ≤ r.version := by
  refine pickLatest_max h x ?_
  rw [List.mem_filter]
  refine ⟨hx, ?_⟩
  simp only [Bool.and_eq_true, Bool.or_eq_true, beq_iff_eq]
  exact ⟨⟨ho, hd⟩, hv⟩

/-- If the resolver comes back empty, no candidate existed. -/
theorem resolveLatest_none {store : List VersionRow} {owner dbname viewer : String}
    (h : resolveLatest store owner dbname viewer = none) :
    ∀ x ∈ store, x.owner = owner → x.dbname = dbname →
      (viewer = owner ∨ x.public = true) → False := by
  intro x hx ho hd hv
  have : store.filter
      (fun v => v.owner == owner && v.dbname == dbname && (viewer == owner || v.public)) = [] :=
    pickLatest_eq_none.mp h
  have hmem : x ∈ store.filter
      (fun v => v.owner == owner && v.dbname == dbname && (viewer == owner || v.public)) := by
    rw [List.mem_filter]
    refine ⟨hx, ?_⟩
    simp only [Bool.and_eq_true, Bool.or_eq_true, beq_iff_eq]
    exact ⟨⟨ho, hd⟩, hv⟩
  rw [this] at hmem
  simp at hmem

/-- On a database with no public version, any viewer who passes the access
check is the owner. -/
theorem access_private_imp_owner {store : List VersionRow} {owner dbname viewer : String}
    {loc : String × String}
    (hPriv : ∀ v ∈ store, v.owner = owner → v.dbname = dbname → v.public = false)
    (h : checkUserDBAccess store viewer owner dbname = some loc) : viewer = owner := by
  unfold checkUserDBAccess at h
  cases hr : resolveLatest store owner dbname viewer with
  | none => rw [hr] at h; simp at h
  | some r =>
    obtain ⟨hmem, ho, hd, hv⟩ := resolveLatest_some_facts hr
    rcases hv with hv | hv
    · exact hv
    · exact absurd hv (by simp [hPriv r hmem ho hd])

/-! ## Fold-max facts for version numbering -/

theorem foldl_max_init_le (l : List VersionRow) (a : Nat) :
    a ≤ l.foldl (fun m r => max m r.version) a := by
  induction l generalizing a with
  | nil => simp
  | cons v rest ih => exact le_trans (le_max_left a v.version) (ih (max a v.version))

theorem foldl_max_mem_le {l : List VersionRow} {r : VersionRow} (h : r ∈ l) (a : Nat) :
    r.version ≤ l.foldl (fun m x => max m x.version) a := by
  induction l generalizing a with
  | nil => simp at h
  | cons v rest ih =>
    rcases List.mem_cons.mp h with rfl | h'
    · exact le_trans (le_max_right a r.version) (foldl_max_init_le rest _)
    · exact ih h' _

/-- Every existing version of `(owner, dbName)` is bounded by
`highestDBVersion`. -/
theorem highestDBVersion_ge {meta : List VersionRow} {owner dbName : String}
    {r : VersionRow} (hr : r ∈ meta) (ho : r.owner = owner) (hd : r.dbname = dbName) :
    r.version ≤ highestDBVersion meta owner dbName := by
  unfold highestDBVersion
  refine foldl_max_mem_le ?_ 0
  rw [List.mem_filter]
  exact ⟨hr, by simp [ho, hd]⟩

/-! ## Cache-key shape facts -/

/-- Two keys of the form `p ++ digest ++ "/" ++ itoa m` with 32-character
digests, namespace tags of equal length or differing by exactly 4, and
limits between 1 and 500, can only be equal when the limits agree. -/
theorem keyed_limit_eq {p1 p2 h1 h2 : String} {m1 m2 : Nat}
    (hh1 : h1.length = 32) (hh2 : h2.length = 32)
    (hd : p1.length = p2.length ∨ p1.length + 4 = p2.length ∨ p2.length + 4 = p1.length)
    (hm1b : m1 ≤ 500) (hm2b : m2 ≤ 500)
    (heq : p1 ++ h1 ++ "/" ++ itoa m1 = p2 ++ h2 ++ "/" ++ itoa m2) : m1 = m2 := by
  have hl := congrArg String.length heq
  simp only [str_length_append] at hl
  have l1a : 1 ≤ (itoa m1).length := itoa_length_pos m1
  have l1b : (itoa m1).length ≤ 3 := itoa_length_le_three hm1b
  have l2a : 1 ≤ (itoa m2).length := itoa_length_pos m2
  have l2b : (itoa m2).length ≤ 3 := itoa_length_le_three hm2b
  have hslash : ("/" : String).length = 1 := rfl
  rcases hd with hd | hd | hd
  · have hpre : (p1 ++ h1 ++ "/").length = (p2 ++ h2 ++ "/").length := by
      simp only [str_length_append, hh1, hh2, hd, hslash]
    exact itoa_inj (str_append_cancel_of_length hpre heq)
  · omega
  · omega

/-! ## Claim C4: version resolution -/

/-- C4: for every `(owner, database)` pair, resolving with no version
specified selects the highest-numbered version overall when the requesting
identity equals the owner, and the highest-numbered version with the public
flag set otherwise; when no version satisfies the applicable constraint the
request resolves to not-found. -/
theorem resolve_no_version_selects_highest (store : List VersionRow)
    (owner dbName viewer : String) :
    (viewer = owner →
      (∀ r, resolveLatest store owner dbName viewer = some r →
        r ∈ store ∧ r.owner = owner ∧ r.dbname = dbName ∧
          ∀ x ∈ store, x.owner = owner → x.dbname = dbName → x.version ≤ r.version) ∧
      (resolveLatest store owner dbName viewer = none →
        ∀ x ∈ store, x.owner = owner → x.dbname = dbName → False))
    ∧ (viewer ≠ owner →
      (∀ r, resolveLatest store owner dbName viewer = some r →
        (r ∈ store ∧ r.owner = owner ∧ r.dbname = dbName ∧ r.public = true) ∧
          ∀ x ∈ store, x.owner = owner → x.dbname = dbName → x.public = true →
            x.version ≤ r.version) ∧
      (resolveLatest store owner dbName viewer = none →
        ∀ x ∈ store, x.owner = owner → x.dbname = dbName → x.public = true → False)) := by
  constructor
  · intro hv
    constructor
    · intro r hr
      obtain ⟨hmem, ho, hd, _⟩ := resolveLatest_some_facts hr
      exact ⟨hmem, ho, hd, fun x hx hxo hxd => resolveLatest_ge hr hx hxo hxd (Or.inl hv)⟩
    · intro hn x hx ho hd
      exact resolveLatest_none hn x hx ho hd (Or.inl hv)
  · intro hv
    constructor
    · intro r hr
      obtain ⟨hmem, ho, hd, hvis⟩ := resolveLatest_some_facts hr
      have hpub : r.public = true := by
        rcases hvis with h | h
        · exact absurd h hv
        · exact h
      exact ⟨⟨hmem, ho, hd, hpub⟩,
        fun x hx hxo hxd hxp => resolveLatest_ge hr hx hxo hxd (Or.inr hxp)⟩
    · intro hn x hx ho hd hp
      exact resolveLatest_none hn x hx ho hd (Or.inr hp)

/-- C4 witness: on a store holding a public version 1 and a private
version 2, the owner's resolution selects version 2 and it dominates
version 1. -/
theorem resolve_no_version_selects_highest_witness :
    verRow2 ∈ twoVerStore ∧ verRow1.version ≤ verRow2.version := by
  have h := ((resolve_no_version_selects_highest twoVerStore "carol" "db1" "carol").1 rfl).1
    verRow2 (by decide)
  exact ⟨h.1, h.2.2.2 verRow1 (by decide) rfl rfl⟩

/-! ## Claim C7: no dangling metadata references -/

/-- C7: on every upload path the database object is stored in the object
store before the metadata row referencing it is committed, so the
no-dangling-reference invariant is preserved by every run of
`uploadDataHandler`, including runs that fail validation (open failure or
zero tables), fail at the object store, or fail at the metadata insert. -/
theorem upload_preserves_no_dangling (st : ServerState) (req : UploadRequest)
    (h : noDanglingRefs st) : noDanglingRefs (uploadDataRun st req).1 := by
  unfold uploadDataRun
  cases hft : req.fileTables with
  | none => simpa using h
  | some tables =>
    by_cases hemp : tables.isEmpty
    · simpa [hemp] using h
    · by_cases hst : req.storeOk = false
      · simpa [hemp, hst] using h
      · by_cases had : req.addOk = false
        · simp only [hemp, hst, had, Bool.false_eq_true, if_false, if_true]
          intro r hr
          exact List.mem_cons_of_mem _ (h r hr)
        · simp only [hemp, hst, had, Bool.false_eq_true, if_false, if_true]
          intro r hr
          rcases List.mem_append.mp hr with h1 | h2
          · exact List.mem_cons_of_mem _ (h r h1)
          · simp only [List.mem_singleton] at h2
            subst h2
            exact List.mem_cons_self _ _

/-- C7 witness: a successful upload into the empty server state leaves no
dangling reference. -/
theorem upload_preserves_no_dangling_witness :
    noDanglingRefs (uploadDataRun ⟨[], []⟩ okUploadReq).1 :=
  upload_preserves_no_dangling ⟨[], []⟩ okUploadReq (by decide)

/-! ## Claim C6: version number assignment -/

/-- C6: a successful upload assigns version `max(existing) + 1` (which is 1
when no version exists), strictly above every existing version of the pair,
and appends a new metadata row rather than overwriting any existing one. -/
theorem upload_version_assignment (st : ServerState) (req : UploadRequest)
    (st' : ServerState) (v : Nat)
    (h : uploadDataRun st req = (st', .success v)) :
    v = highestDBVersion st.meta req.owner req.dbName + 1 ∧
    1 ≤ v ∧
    (∀ r ∈ st.meta, r.owner = req.owner → r.dbname = req.dbName → r.version < v) ∧
    st'.meta = st.meta ++
      [⟨req.owner, req.dbName, v, req.public, req.bucket, req.minioID, req.size, req.sha⟩] := by
  unfold uploadDataRun at h
  cases hft : req.fileTables with
  | none => rw [hft] at h; simp at h
  | some tables =>
    rw [hft] at h
    by_cases hemp : tables.isEmpty
    · simp [hemp] at h
    · by_cases hst : req.storeOk = false
      · simp [hemp, hst] at h
      · by_cases had : req.addOk = false
        · simp [hemp, hst, had] at h
        · simp [hemp, hst, had] at h
          obtain ⟨hst', hv⟩ := h
          have hv' : v = highestDBVersion st.meta req.owner req.dbName + 1 := by
            rw [← hv]
            split
            · rfl
            · omega
          refine ⟨hv', by omega, ?_, ?_⟩
          · intro r hr ho hd
            have := highestDBVersion_ge hr ho hd
            omega
          · rw [← hst', hv]

/-- C6 witness: uploading `carol/db1` into a state already holding versions
1 and 2 assigns version 3 and appends. -/
theorem upload_version_assignment_witness :
    (3 : Nat) = highestDBVersion twoVerStore "carol" "db1" + 1 ∧
    1 ≤ (3 : Nat) ∧
    (∀ r ∈ twoVerStore, r.owner = "carol" → r.dbname = "db1" → r.version < 3) ∧
    (uploadDataRun ⟨[("bkt", "obj1"), ("bkt", "obj2")], twoVerStore⟩ okUploadReq).1.meta =
      twoVerStore ++ [⟨"carol", "db1", 3, true, "bkt", "obj9", 7, "ff"⟩] := by
  have h := upload_version_assignment ⟨[("bkt", "obj1"), ("bkt", "obj2")], twoVerStore⟩
    okUploadReq (uploadDataRun ⟨[("bkt", "obj1"), ("bkt", "obj2")], twoVerStore⟩ okUploadReq).1
    3 (by decide)
  exact h

/-! ## Claim C1: viewer isolation of private-database cache keys -/

/-- C1: on a private database (no public version), any two cache keys that
the `databasePage` or `visData` pipelines construct and that collide come
from the same viewer (so requests differing only in viewer identity never
produce colliding keys); the owner-namespace key never equals any
non-owner-namespace key; and for a single viewer the key construction is a
deterministic function of the request shape. -/
theorem cache_keys_private_viewer_isolation (store : List VersionRow)
    (owner dbName : String)
    (hPriv : ∀ r ∈ store, r.owner = owner → r.dbname = dbName → r.public = false) :
    (∀ v1 v2 t p1 p2 k1 k2,
        databasePageKeyOf store v1 owner dbName t p1 = some k1 →
        databasePageKeyOf store v2 owner dbName t p2 = some k2 → k1 = k2 → v1 = v2)
    ∧ (∀ v1 v2 t x y wc wt wv k1 k2,
        visDataKeyOf store v1 owner dbName t x y wc wt wv = some k1 →
        visDataKeyOf store v2 owner dbName t x y wc wt wv = some k2 → k1 = k2 → v1 = v2)
    ∧ (∀ v t, v ≠ owner →
        databasePageCacheKeyBase v owner dbName t ≠ databasePageCacheKeyBase owner owner dbName t)
    ∧ (∀ v t x y wc wt wv, v ≠ owner →
        visDataCacheKey v owner dbName t x y wc wt wv ≠
          visDataCacheKey owner owner dbName t x y wc wt wv)
    ∧ (∀ v t x y wc wt wv t' x' y' wc' wt' wv',
        t = t' → x = x' → y = y' → wc = wc' → wt = wt' → wv = wv' →
        visDataCacheKey v owner dbName t x y wc wt wv =
          visDataCacheKey v owner dbName t' x' y' wc' wt' wv') := by
  refine ⟨?_, ?_, ?_, ?_, ?_⟩
  · intro v1 v2 t p1 p2 k1 k2 h1 h2 _
    unfold databasePageKeyOf at h1 h2
    have hv1 : v1 = owner := by
      cases hc : checkUserDBAccess store v1 owner dbName with
      | none => rw [hc] at h1; simp at h1
      | some loc => exact access_private_imp_owner hPriv hc
    have hv2 : v2 = owner := by
      cases hc : checkUserDBAccess store v2 owner dbName with
      | none => rw [hc] at h2; simp at h2
      | some loc => exact access_private_imp_owner hPriv hc
    rw [hv1, hv2]
  · intro v1 v2 t x y wc wt wv k1 k2 h1 h2 _
    unfold visDataKeyOf at h1 h2
    have hv1 : v1 = owner := by
      cases hc : checkUserDBAccess store v1 owner dbName with
      | none => rw [hc] at h1; simp at h1
      | some loc => exact access_private_imp_owner hPriv hc
    have hv2 : v2 = owner := by
      cases hc : checkUserDBAccess store v2 owner dbName with
      | none => rw [hc] at h2; simp at h2
      | some loc => exact access_private_imp_owner hPriv hc
    rw [hv1, hv2]
  · intro v t hv
    apply str_ne_of_length_ne
    rw [databasePageCacheKeyBase, if_pos hv, databasePageCacheKeyBase,
      if_neg (fun hcon => hcon rfl)]
    rw [str_length_append, str_length_append, md5Hex_length, md5Hex_length]
    decide
  · intro v t x y wc wt wv hv
    apply str_ne_of_length_ne
    rw [visDataCacheKey, if_pos hv, visDataCacheKey, if_neg (fun hcon => hcon rfl)]
    rw [str_length_append, str_length_append, md5Hex_length, md5Hex_length]
    decide
  · intro v t x y wc wt wv t' x' y' wc' wt' wv' h1 h2 h3 h4 h5 h6
    rw [h1, h2, h3, h4, h5, h6]

/-- C1 witness: on the private store, the anonymous viewer's `visData` key
differs from the owner's. -/
theorem cache_keys_private_viewer_isolation_witness :
    visDataCacheKey "anna" "carol" "db1" "t1" "" "" "" "" "" ≠
      visDataCacheKey "carol" "carol" "db1" "t1" "" "" "" "" "" := by
  have h := cache_keys_private_viewer_isolation privStore "carol" "db1" (by decide)
  exact h.2.2.2.1 "anna" "t1" "" "" "" "" "" (by decide)

/-! ## Claim C10: the rendered-result cache key carries the row limit -/

/-- C10: the rendered-result cache keys of `databasePage` and
`tableViewHandler` always carry the effective row limit as a `/<limit>`
suffix, and two keys built with different limits (each in the 1–500
preference range, which includes the anonymous default 10) are always
distinct, whatever the other request parameters are. -/
theorem rendered_cache_key_includes_row_limit :
    (∀ u o d t (m : Nat),
        databasePageCacheKey u o d t m = databasePageCacheKeyBase u o d t ++ "/" ++ itoa m)
    ∧ (∀ u o d t (m : Nat),
        tableViewJSONCacheKey u o d t m = tableViewJSONCacheKeyBase u o d t ++ "/" ++ itoa m)
    ∧ (∀ u o d t m u' o' d' t' m', m ≤ 500 → m' ≤ 500 → m ≠ m' →
        databasePageCacheKey u o d t m ≠ databasePageCacheKey u' o' d' t' m')
    ∧ (∀ u o d t m u' o' d' t' m', m ≤ 500 → m' ≤ 500 → m ≠ m' →
        tableViewJSONCacheKey u o d t m ≠ tableViewJSONCacheKey u' o' d' t' m') := by
  refine ⟨fun _ _ _ _ _ => rfl, fun _ _ _ _ _ => rfl, ?_, ?_⟩
  · intro u o d t m u' o' d' t' m' hm hm' hne heq
    apply hne
    unfold databasePageCacheKey databasePageCacheKeyBase at heq
    split_ifs at heq
    · exact keyed_limit_eq (md5Hex_length _) (md5Hex_length _) (Or.inl rfl) hm hm' heq
    · exact keyed_limit_eq (md5Hex_length _) (md5Hex_length _)
        (Or.inr (Or.inr (by decide))) hm hm' heq
    · exact keyed_limit_eq (md5Hex_length _) (md5Hex_length _)
        (Or.inr (Or.inl (by decide))) hm hm' heq
    · exact keyed_limit_eq (md5Hex_length _) (md5Hex_length _) (Or.inl rfl) hm hm' heq
  · intro u o d t m u' o' d' t' m' hm hm' hne heq
    apply hne
    unfold tableViewJSONCacheKey tableViewJSONCacheKeyBase at heq
    split_ifs at heq
    · exact keyed_limit_eq (md5Hex_length _) (md5Hex_length _) (Or.inl rfl) hm hm' heq
    · exact keyed_limit_eq (md5Hex_length _) (md5Hex_length _)
        (Or.inr (Or.inr (by decide))) hm hm' heq
    · exact keyed_limit_eq (md5Hex_length _) (md5Hex_length _)
        (Or.inr (Or.inl (by decide))) hm hm' heq
    · exact keyed_limit_eq (md5Hex_length _) (md5Hex_length _) (Or.inl rfl) hm hm' heq

/-- C10 witness: the anonymous key at limit 10 and a logged-in non-owner's
key at limit 500 differ even with every other parameter identical. -/
theorem rendered_cache_key_includes_row_limit_witness :
    tableViewJSONCacheKey "" "carol" "db1" "t1" 10 ≠
      tableViewJSONCacheKey "anna" "carol" "db1" "t1" 500 :=
  rendered_cache_key_includes_row_limit.2.2.2 "" "carol" "db1" "t1" 10 "anna" "carol" "db1"
    "t1" 500 (by decide) (by decide) (by decide)

/-! ## Four-decimal formatting facts -/

theorem padZeros4_length {s : String} (h : s.length ≤ 4) : (padZeros4 s).length = 4 := by
  rw [padZeros4, str_length_append]
  simp only [str_length_data, List.length_replicate]
  rw [str_length_data] at h
  omega

theorem padZeros4_digits {s : String} (h : ∀ c ∈ s.data, c.isDigit) :
    ∀ c ∈ (padZeros4 s).data, c.isDigit := by
  intro c hc
  rw [padZeros4, str_data_append] at hc
  rcases List.mem_append.mp hc with h1 | h2
  · have := List.eq_of_mem_replicate h1
    subst this
    decide
  · exact h c h2

theorem formatFloat4_fourDecimals (q : ℚ) : fourDecimals (formatFloat4 q) := by
  refine ⟨(if round (q * 10000) < (0 : ℤ) then "-" else "") ++
      itoa ((round (q * 10000)).natAbs / 10000),
    padZeros4 (itoa ((round (q * 10000)).natAbs % 10000)), rfl, ?_, ?_⟩
  · exact padZeros4_length (itoa_length_le_four (Nat.mod_lt _ (by omega)))
  · exact padZeros4_digits (itoaAux_digits _)

/-! ## Claim C3: row limits (corrected: the CSV export is unbounded) -/

/-- C3 counterexample: the CSV export of an eleven-row table returns all
eleven rows, exceeding the 10-row cap the claim asserts for an anonymous
viewer (and any other cap, for suitably larger tables): the CSV read has no
row limit at all. -/
theorem csv_export_unbounded_counterexample :
    (downloadCSVRows elevenRowTable).length = 11 ∧
    ¬((downloadCSVRows elevenRowTable).length ≤ 10) := by decide

/-- C3 (amended): the database-page/table-view read never returns more rows
than its limit (the per-user preference for logged-in viewers, 10 for
anonymous viewers), and the `visData` endpoint always reads with the fixed
2500-row cap — but the CSV export applies no limit and decodes every row of
the table. -/
theorem row_limits_applied_except_csv :
    (∀ t m, (readSQLiteDB t m).RowCount ≤ m ∧ (readSQLiteDB t m).Records.length ≤ m)
    ∧ (∀ t u pref, u = "" → (readSQLiteDB t (effectiveMaxRows u pref)).Records.length ≤ 10)
    ∧ (∀ t u pref, u ≠ "" → (readSQLiteDB t (effectiveMaxRows u pref)).Records.length ≤ pref)
    ∧ (∀ store file cacheHit req tbl lim,
        visDataRun store file cacheHit req = .readAll tbl lim → lim = 2500)
    ∧ (∀ store file cacheHit req tbl xc yc lim,
        visDataRun store file cacheHit req = .readCols tbl xc yc lim → lim = 2500)
    ∧ (∀ t, (downloadCSVRows t).length = t.rows.length) := by
  have hbound : ∀ t m, (readSQLiteDB t m).RowCount ≤ m ∧
      (readSQLiteDB t m).Records.length ≤ m := by
    intro t m
    constructor
    · simp [readSQLiteDB, List.length_take]
    · simp [readSQLiteDB, List.length_take]
  refine ⟨hbound, ?_, ?_, ?_, ?_, ?_⟩
  · intro t u pref hu
    subst hu
    have := (hbound t (effectiveMaxRows "" pref)).2
    simpa [effectiveMaxRows] using this
  · intro t u pref hu
    have := (hbound t (effectiveMaxRows u pref)).2
    simpa [effectiveMaxRows, hu] using this
  · intro store file cacheHit req tbl lim h
    unfold visDataRun at h
    repeat' split at h
    all_goals (try simp only [ite_eq_iff] at h)
    all_goals simp_all
  · intro store file cacheHit req tbl xc yc lim h
    unfold visDataRun at h
    repeat' split at h
    all_goals (try simp only [ite_eq_iff] at h)
    all_goals simp_all
  · intro t
    simp [downloadCSVRows]

/-- C3 witness: an anonymous table-view read of the eleven-row table is
capped at ten records. -/
theorem row_limits_applied_except_csv_witness :
    (readSQLiteDB elevenRowTable (effectiveMaxRows "" 500)).Records.length ≤ 10 :=
  row_limits_applied_except_csv.2.1 elevenRowTable "" 500 rfl

/-! ## Claim C5: cell decoding (corrected: the CSV export inlines blobs and
uses a bare `NULL` string) -/

/-- C5 counterexample: in the CSV export a blob cell is decoded to the
base64 encoding of its payload — two different payloads give two different
output strings, so the output is payload-dependent, not a placeholder — and
a NULL cell decodes to the bare string `NULL`, indistinguishable from a text
cell containing `NULL`. -/
theorem csv_cell_decoding_counterexample :
    downloadCSVCellString (.blob [0]) = "AA==" ∧
    downloadCSVCellString (.blob [1]) = "AQ==" ∧
    downloadCSVCellString (.blob [0]) ≠ downloadCSVCellString (.blob [1]) ∧
    downloadCSVCellString .null = downloadCSVCellString (.txt "NULL") := by decide

/-- C5 (amended): the database-page (JSON) row read decodes cells by the
per-type rules — integer → decimal string, float → a string with exactly
four digits after the decimal point, text as-is, binary → a constant
placeholder that never depends on the payload, NULL → a marker carrying the
`Null` type tag that no other cell kind carries — while the CSV export
instead inlines the base64 encoding of a binary payload and emits the bare
string `NULL` for a NULL cell. -/
theorem cell_decoding_rules :
    (∀ n i, databasePageDataValue n (.intg i) = ⟨n, .Integer, intToDecimal i⟩)
    ∧ (∀ n s, databasePageDataValue n (.txt s) = ⟨n, .Text, s⟩)
    ∧ (∀ n q, (databasePageDataValue n (.flt q)).«Type» = .Float ∧
        fourDecimals (databasePageDataValue n (.flt q)).Value)
    ∧ (∀ n b b', databasePageDataValue n (.blob b) = databasePageDataValue n (.blob b'))
    ∧ (∀ n b, (databasePageDataValue n (.blob b)).Value = "<i>BINARY DATA</i>")
    ∧ (∀ n c, (databasePageDataValue n c).«Type» = ColType.Null ↔ c = .null)
    ∧ (∀ n, databasePageDataValue n .null = ⟨n, .Null, "<i>NULL</i>"⟩)
    ∧ (∀ b, downloadCSVCellString (.blob b) = base64Std b)
    ∧ downloadCSVCellString .null = "NULL" := by
  refine ⟨fun _ _ => rfl, fun _ _ => rfl, ?_, fun _ _ _ => rfl, fun _ _ => rfl, ?_,
    fun _ => rfl, fun _ => rfl, rfl⟩
  · intro n q
    exact ⟨rfl, formatFloat4_fourDecimals q⟩
  · intro n c
    cases c <;> simp [databasePageDataValue]

/-! ## Claim C8: the empty-result response bytes -/

/-- C8: on a zero-row result `tableViewHandler` emits the two bytes
`0x7b 0x5d` — an opening brace followed by a closing bracket.  This is a
distinguished marker and is neither `null` nor the empty object, but it is
not well-formed JSON (its delimiters do not match), and in particular it is
not the empty array `[]`. -/
theorem table_view_empty_response_malformed :
    tableViewResponseBody "ignored" 0 = tableViewEmptyIndicator ∧
    delimsBalanced tableViewEmptyIndicator = false ∧
    delimsBalanced "[]" = true ∧
    tableViewEmptyIndicator ≠ "[]" ∧
    tableViewEmptyIndicator ≠ "null" ∧
    tableViewEmptyIndicator ≠ ⟨[lbrace, rbrace]⟩ := by decide

/-! ## Claim C9: invalid filter operator (corrected: silent return, not
BadRequest) -/

/-- C9 counterexample: a request whose filter operator is `BETWEEN` makes
`visData` return silently — nothing is written to the response, so the
client does not receive a `BadRequest` response. -/
theorem visdata_invalid_operator_not_badrequest :
    visDataRun pubStore (some oneTableFile) none badOpReq = .silent ∧
    (visDataRun pubStore (some oneTableFile) none badOpReq).isBadRequest = false := by
  decide

/-- C9 (amended): for every request whose filter operator is a non-empty
string outside the whitelist, `visData` terminates before the access check
with a bare return — no response is written and no read is performed. -/
theorem visdata_invalid_operator_silent (store : List VersionRow) (file : Option DBFile)
    (cacheHit : Option String) (req : VisRequest)
    (h1 : req.wheretype ≠ "") (h2 : validWhereOp req.wheretype = false) :
    visDataRun store file cacheHit req = .silent ∧
    (visDataRun store file cacheHit req).isRead = false := by
  have hcond : (decide (req.wheretype ≠ "") && !validWhereOp req.wheretype) = true := by
    simp [h1, h2]
  have hmain : visDataRun store file cacheHit req = .silent := by
    unfold visDataRun
    by_cases hx : (decide (req.xcol ≠ "") && !validatePGTable req.xcol) = true
    · rw [if_pos hx]
    · rw [if_neg hx]
      by_cases hy : (decide (req.ycol ≠ "") && !validatePGTable req.ycol) = true
      · rw [if_pos hy]
      · rw [if_neg hy]
        by_cases hw : (decide (req.wherecol ≠ "") && !validatePGTable req.wherecol) = true
        · rw [if_pos hw]
        · rw [if_neg hw, if_pos hcond]
  exact ⟨hmain, by rw [hmain]; rfl⟩

/-- C9 witness: the concrete `BETWEEN` request is silently dropped. -/
theorem visdata_invalid_operator_silent_witness :
    visDataRun pubStore (some oneTableFile) none badOpReq = .silent ∧
    (visDataRun pubStore (some oneTableFile) none badOpReq).isRead = false :=
  visdata_invalid_operator_silent pubStore (some oneTableFile) none badOpReq
    (by decide) (by decide)

/-! ## Claim C2: identifier whitelisting (code bug: the read receives the
unvalidated table name) -/

/-- C2 failing input: a request for the table `evil`, absent from the
file's enumeration `[t1]`.  `visData` computes the validated fallback table
`t1`, but the read call receives the unvalidated requested name `evil` with
the 2500-row cap — the enumeration check's result is discarded. -/
theorem visdata_reads_unvalidated_table :
    visDataRun pubStore (some oneTableFile) none evilTableReq = .readAll "evil" 2500 ∧
    "evil" ∉ listTables oneTableFile ∧
    visDataSelectedTable (listTables oneTableFile) "evil" = "t1" ∧
    (visDataRun pubStore (some oneTableFile) none evilTableReq).isRead = true := by decide
